import Mathlib

/-!
# XML document model and writer (`XML.h`, namespace `mrt`)

A shallow embedding of the node / attribute / document data model of `XML.h`
and of its recursive text emission, followed by theorems about the emitted
text.

Modelling conventions

* `_StrType` (the text representation the templates are instantiated with) is
  modelled by Lean's `String`; the one place where the instantiations differ in
  what they emit, the prolog, takes the representation as a `StrType` argument.
* An output stream is the text written to it so far; `fs << s` appends `s`.
* `size_t tabs` is a natural number: the counter grows by one per nesting level
  and the text `getTabs` builds has that many characters, so it stays far below
  `2 ^ 64` for every tree that fits in memory.
-/

namespace mrt

/-! ## Data model -/

/-- The instantiations of `_StrType` for which the header gives specialisations. -/
inductive StrType where
  | string
  | wstring
  | u8string
deriving DecidableEq, Repr

/-- The struct `XML_Attribute`. -/
structure XML_Attribute where
  m_Name : String
  m_Value : String
deriving DecidableEq, Repr

/-- The class `XML_Node`: name, value, attribute sequence, child sequence. -/
inductive XML_Node where
  | mk (m_Name : String) (m_Value : String) (m_Attributes : List XML_Attribute)
      (m_Children : List XML_Node) : XML_Node

namespace XML_Node

/-- Accessor `XML_Node::GetName`. -/
def GetName : XML_Node → String
  | mk name _ _ _ => name

/-- Accessor `XML_Node::GetValue`. -/
def GetValue : XML_Node → String
  | mk _ value _ _ => value

/-- Accessor `XML_Node::GetAllAttributes`. -/
def GetAllAttributes : XML_Node → List XML_Attribute
  | mk _ _ attrs _ => attrs

/-- Accessor `XML_Node::GetAllChildren`. -/
def GetAllChildren : XML_Node → List XML_Node
  | mk _ _ _ children => children

end XML_Node

/-- The enum class `XML_Document_FileError`. -/
inductive XML_Document_FileError where
  | SUCCESS
  | FAILED_TO_OPEN
deriving DecidableEq, Repr

/-- The class `XML_Document`. -/
structure XML_Document where
  m_Version : String
  m_Namespace : String
  m_Root : XML_Node
  m_AddProlog : Bool
  m_NewLines : Bool

namespace XML_Document

/-- Accessor `XML_Document::GetRoot`. -/
def GetRoot (d : XML_Document) : XML_Node := d.m_Root

/-- Accessor `XML_Document::GetVersion`. -/
def GetVersion (d : XML_Document) : String := d.m_Version

/-- Accessor `XML_Document::GetNamespace`. -/
def GetNamespace (d : XML_Document) : String := d.m_Namespace

/-- Accessor `XML_Document::GetAddProlog`. -/
def GetAddProlog (d : XML_Document) : Bool := d.m_AddProlog

/-- Accessor `XML_Document::GetNewLines`. -/
def GetNewLines (d : XML_Document) : Bool := d.m_NewLines

end XML_Document

/-! ## Formatting helpers -/

/-- Function `getXMLprolog`: the three specialisations. -/
def getXMLprolog (T : StrType) (version : String) : String :=
  match T with
  | .string => "<?xml version=\"" ++ version ++ "\" encoding=\"UTF-8\"?>"
  | .wstring => "<?xml version=\"" ++ version ++ "\" encoding=\"UTF-16\"?>"
  | .u8string => "<?xml version=\"" ++ version ++ "\" encoding=\"UTF-8\"?>"

/-- Function `getStartNode`: the string stream `ss` receives `<` and the name, then one
piece per attribute in the order of the attribute vector, then `>`. -/
def getStartNode (node : XML_Node) : String :=
  let ss : String := ""
  let ss := ss ++ "<" ++ node.GetName
  let ss := node.GetAllAttributes.foldl
    (fun ss attr => ss ++ " " ++ attr.m_Name ++ "=\"" ++ attr.m_Value ++ "\"") ss
  let ss := ss ++ ">"
  ss

/-- Function `getEndNode`. -/
def getEndNode (node : XML_Node) : String :=
  "</" ++ node.GetName ++ ">"

/-- Function `getTabs`: `_StrType(amount, '\t')`. -/
def getTabs (amount : Nat) : String :=
  String.mk (List.replicate amount '\t')

/-- Function `getNewLine`. -/
def getNewLine (newLines : Bool) : String :=
  if newLines then "\n" else ""

/-! ## Writer -/

/-- An output stream, as the text it has received. -/
abbrev OStream := String

mutual
/-- Function `XML_Document::WriteChildrenNodes`: the range-for over the children of `node`. -/
def WriteChildrenNodes (fs : OStream) : XML_Node → Bool → Nat → OStream
  | .mk _ _ _ children, newLines, tabs => WriteChildrenNodes.loop fs children newLines tabs
/-- The body of the range-for of `WriteChildrenNodes`, over the children still
to be visited. -/
def WriteChildrenNodes.loop (fs : OStream) : List XML_Node → Bool → Nat → OStream
  | [], _, _ => fs
  | child :: rest, newLines, tabs =>
    if child.GetAllChildren.length > 0 then
      let fs := fs ++ (if newLines then getTabs tabs else "") ++ getStartNode child
        ++ getNewLine newLines
      let fs := WriteChildrenNodes fs child newLines (tabs + 1)
      let fs := fs ++ (if newLines then getTabs tabs else "") ++ getEndNode child
        ++ getNewLine newLines
      WriteChildrenNodes.loop fs rest newLines tabs
    else
      let fs := fs ++ (if newLines then getTabs tabs else "") ++ getStartNode child
        ++ child.GetValue ++ getEndNode child ++ getNewLine newLines
      WriteChildrenNodes.loop fs rest newLines tabs
end

/-- Function `XML_Document::WriteDocumentToStream`. -/
def WriteDocumentToStream (T : StrType) (fs : OStream) (document : XML_Document) : OStream :=
  let fs :=
    if document.GetAddProlog then
      fs ++ getXMLprolog T document.GetVersion ++ getNewLine document.GetNewLines
    else fs
  let fs := fs ++ getStartNode document.GetRoot ++ getNewLine document.GetNewLines
  let fs := WriteChildrenNodes fs document.GetRoot document.GetNewLines 1
  let fs := fs ++ getEndNode document.GetRoot ++ getNewLine document.GetNewLines
  fs

/-- Construction of the `OFstream` of `WriteDocument`: `canOpen path` tells
whether the file at `path` can be opened for writing. The result is `none` when
`is_open()` is false, and otherwise the freshly opened sink, which holds no
text yet. -/
def OFstream (canOpen : String → Bool) (path : String) : Option OStream :=
  if canOpen path then some "" else none

/-- Function `XML_Document::WriteDocument`. The result is the returned status
together with the text the file sink received (`none` when no sink was
opened). -/
def WriteDocument (T : StrType) (canOpen : String → Bool) (path : String)
    (document : XML_Document) : XML_Document_FileError × Option OStream :=
  match OFstream canOpen path with
  | none => (XML_Document_FileError.FAILED_TO_OPEN, none)
  | some fs =>
    let fs :=
      if document.GetAddProlog then
        fs ++ getXMLprolog T document.GetVersion ++ getNewLine document.GetNewLines
      else fs
    let fs := fs ++ getStartNode document.GetRoot ++ getNewLine document.GetNewLines
    let fs := WriteChildrenNodes fs document.GetRoot document.GetNewLines 1
    let fs := fs ++ getEndNode document.GetRoot ++ getNewLine document.GetNewLines
    (XML_Document_FileError.SUCCESS, some fs)

/-! ## Node operations -/

/-- What a reference returned by a lookup denotes when the caller receives it. -/
inductive Reference (α : Type) where
  /-- The element at offset `index` of the vector that was searched. -/
  | element (index : Nat) : Reference α
  /-- A temporary object of the returning function that held `value` and has
  been destroyed by the time the function has returned. -/
  | destroyedTemporary (value : α) : Reference α
deriving DecidableEq, Repr

namespace XML_Node

/-- Function `XML_Node::FindAttr`: `std::find_if` over the attribute vector with
the predicate `attr.m_Name == attrName`. An iterator is modelled by its offset
from `begin()`, so that `end()` is the length of the vector. -/
def FindAttr (node : XML_Node) (attrName : String) : Nat :=
  node.GetAllAttributes.findIdx (fun attr => attr.m_Name == attrName)

/-- Function `XML_Node::FindChild`: `std::find_if` over the child vector with the
predicate `child.GetName() == childName`; iterators as for `FindAttr`. -/
def FindChild (node : XML_Node) (childName : String) : Nat :=
  node.GetAllChildren.findIdx (fun child => child.GetName == childName)

/-- Function `XML_Node::AddAttribute`: the node after `emplace_back(name, value)`,
and the element `m_Attributes.back()` the returned reference denotes. -/
def AddAttribute : XML_Node → String → String → XML_Node × XML_Attribute
  | mk n v attrs children, name, value =>
    let attrs := attrs ++ [⟨name, value⟩]
    (mk n v attrs children, attrs.getLastD ⟨name, value⟩)

/-- Function `XML_Node::AddChild`: the node after `emplace_back(child)`, and the
element `m_Children.back()` the returned reference denotes. -/
def AddChild : XML_Node → XML_Node → XML_Node × XML_Node
  | mk n v attrs children, child =>
    let children := children ++ [child]
    (mk n v attrs children, children.getLastD child)

/-- Function `XML_Node::GetAttribute`, the `const` overload. In
`(it != m_Attributes.cend()) ? *it : XML_Attribute<_StrType>()` the second
operand is an lvalue and the third a prvalue of the same class, so the
conditional expression is a prvalue: on a hit a copy of `*it`, on a miss the
value-initialised attribute, whose two texts are empty. The returned reference
is bound to the temporary that holds this value, and that temporary is
destroyed when the `return` statement ends. `it != cend()` is `it < length`
for the offset `it`.

The overload that is not `const` binds the same prvalue to the return type
`XML_Attribute&`, which is ill-formed, and both overloads of
`XML_Node::GetChild` contain `XML_Node<_StrType>()`, for which the class
declares no constructor; these three members cannot be instantiated and have
no model. -/
def GetAttribute (node : XML_Node) (name : String) : Reference XML_Attribute :=
  let it := node.FindAttr name
  Reference.destroyedTemporary
    (if h : it < node.GetAllAttributes.length then node.GetAllAttributes[it] else ⟨"", ""⟩)

end XML_Node

/-! ## Document operations -/

/-- Constructor `XML_Document::XML_Document(root, version, namespaceWord, addProlog,
newLines)`, with the default arguments of its declaration. (Named with a suffix
because the class name itself is taken by the structure.) -/
def XML_Document.XML_Document_init (root : XML_Node) (version : String)
    (namespaceWord : String := "") (addProlog : Bool := true) (newLines : Bool := true) :
    XML_Document :=
  { m_Root := root, m_Version := version, m_Namespace := namespaceWord,
    m_AddProlog := addProlog, m_NewLines := newLines }

/-- Copy constructor `XML_Document::XML_Document(const XML_Document&)`: its
initialiser list names `m_Root`, `m_Namespace`, `m_AddProlog` and `m_NewLines`;
`m_Version` is not named and is default-initialised, to the empty text. -/
def XML_Document.XML_Document_copy (other : XML_Document) : XML_Document :=
  { m_Root := other.m_Root, m_Namespace := other.m_Namespace,
    m_AddProlog := other.m_AddProlog, m_NewLines := other.m_NewLines,
    m_Version := "" }

/-- Move constructor `XML_Document::XML_Document(XML_Document&&)`, as the value of
the new document: the same initialiser list as the copy constructor. -/
def XML_Document.XML_Document_move (other : XML_Document) : XML_Document :=
  { m_Root := other.m_Root, m_Namespace := other.m_Namespace,
    m_AddProlog := other.m_AddProlog, m_NewLines := other.m_NewLines,
    m_Version := "" }

/-- Copy assignment `XML_Document::operator=`: the document `self` after
`self = other`. The body assigns `m_Root`, `m_Namespace`, `m_AddProlog` and
`m_NewLines`. -/
def XML_Document.operator_assign (self other : XML_Document) : XML_Document :=
  let self := { self with m_Root := other.m_Root }
  let self := { self with m_Namespace := other.m_Namespace }
  let self := { self with m_AddProlog := other.m_AddProlog }
  let self := { self with m_NewLines := other.m_NewLines }
  self

/-- Function `XML_Document::SetAddProlog`: the document after the call. -/
def XML_Document.SetAddProlog (d : XML_Document) (addProlog : Bool) : XML_Document :=
  { d with m_AddProlog := addProlog }

/-- Function `XML_Document::SetNewLines`: the document after the call. -/
def XML_Document.SetNewLines (d : XML_Document) (newLines : Bool) : XML_Document :=
  { d with m_NewLines := newLines }

/-- Construction of the `IFstream` of `ReadDocument`: `files path` is the text of
the file at `path` when it can be opened for reading. The result is `none` when
`is_open()` is false, and otherwise the opened source with the text of the
file. -/
def IFstream (files : String → Option String) (path : String) : Option String :=
  files path

/-- Function `XML_Document::ReadDocument`. The result is the returned status
together with the document passed by reference, as it is after the call. -/
def ReadDocument (files : String → Option String) (path : String)
    (document : XML_Document) : XML_Document_FileError × XML_Document :=
  match IFstream files path with
  | none => (XML_Document_FileError.FAILED_TO_OPEN, document)
  | some _ => (XML_Document_FileError.SUCCESS, document)

/-! ## Example documents -/

/-- A document with two levels below the root: the root `root` has the child
`row` (attribute `n="1"`), which has the leaf child `cell` with value `v`. -/
def nestedDocument : XML_Document where
  m_Version := "1.0"
  m_Namespace := ""
  m_Root := .mk "root" "x" [] [.mk "row" "y" [⟨"n", "1"⟩] [.mk "cell" "v" [] []]]
  m_AddProlog := true
  m_NewLines := true

/-! ## Specification-side vocabulary -/

/-- The text of one attribute inside an opening tag: a space, the name, `="`,
the value, `"`. -/
def attributeText (a : XML_Attribute) : String :=
  " " ++ a.m_Name ++ "=\"" ++ a.m_Value ++ "\""

/-- The text one iteration of the loop of `WriteChildrenNodes` adds to the
stream for `child`, at indentation depth `tabs`. -/
def childText (child : XML_Node) (newLines : Bool) (tabs : Nat) : String :=
  if child.GetAllChildren.length > 0 then
    (if newLines then getTabs tabs else "") ++ getStartNode child ++ getNewLine newLines
      ++ WriteChildrenNodes "" child newLines (tabs + 1)
      ++ (if newLines then getTabs tabs else "") ++ getEndNode child ++ getNewLine newLines
  else
    (if newLines then getTabs tabs else "") ++ getStartNode child ++ child.GetValue
      ++ getEndNode child ++ getNewLine newLines

mutual
/-- Two nodes are identical except for the value text of nodes that have at
least one child: same name, same attribute sequence, same value when the child
sequence is empty, and children related pairwise in order. -/
def sameUpToContainerValues : XML_Node → XML_Node → Bool
  | .mk n₁ v₁ a₁ c₁, .mk n₂ v₂ a₂ c₂ =>
    n₁ == n₂ && a₁ == a₂ && (!c₁.isEmpty || v₁ == v₂) && sameUpToContainerValues.list c₁ c₂
/-- The relation `sameUpToContainerValues` on two child sequences, position by
position. -/
def sameUpToContainerValues.list : List XML_Node → List XML_Node → Bool
  | [], [] => true
  | x :: xs, y :: ys => sameUpToContainerValues x y && sameUpToContainerValues.list xs ys
  | _, _ => false
end

/-- The node reached from `node` by following `path`, a sequence of child
positions: the empty path is `node` itself, and each further entry selects a
child of the node reached so far. The length of the path is the nesting depth
of the node reached. -/
def nodeAt : XML_Node → List Nat → Option XML_Node
  | node, [] => some node
  | node, i :: path =>
    match node.GetAllChildren[i]? with
    | some child => nodeAt child path
    | none => none

/-- The position right after the text `before` is the beginning of a line:
`before` is empty or its last character is a newline. -/
def atLineStart (before : String) : Bool :=
  match before.data.getLast? with
  | none => true
  | some c => c == '\n'

/-- A tab or a newline character. -/
def isTabOrNewline (c : Char) : Bool :=
  c == '\t' || c == '\n'

/-- The text `s` contains no tab and no newline character. -/
def hasNoTabOrNewline (s : String) : Bool :=
  s.data.all (fun c => !isTabOrNewline c)

/-- The text `s` with every tab and every newline character deleted. -/
def deleteTabsAndNewlines (s : String) : String :=
  String.mk (s.data.filter (fun c => !isTabOrNewline c))

mutual
/-- The name and the value of the node, the names and values of its attributes,
and the same texts of all nodes below it contain no tab and no newline. -/
def XML_Node.hasNoTabOrNewline : XML_Node → Bool
  | .mk name value attrs children =>
    mrt.hasNoTabOrNewline name && mrt.hasNoTabOrNewline value
      && attrs.all (fun a => mrt.hasNoTabOrNewline a.m_Name && mrt.hasNoTabOrNewline a.m_Value)
      && XML_Node.hasNoTabOrNewline.list children
/-- The predicate `XML_Node.hasNoTabOrNewline` on every node of a child sequence. -/
def XML_Node.hasNoTabOrNewline.list : List XML_Node → Bool
  | [] => true
  | child :: rest => XML_Node.hasNoTabOrNewline child && XML_Node.hasNoTabOrNewline.list rest
end

/-- The version of the document and all texts of its tree contain no tab and no
newline. -/
def XML_Document.hasNoTabOrNewline (document : XML_Document) : Bool :=
  mrt.hasNoTabOrNewline document.m_Version && document.m_Root.hasNoTabOrNewline

mutual
/-- The element of a node as a plain concatenation, following the words of the
claim on `newLines = false`: for a node with children the opening tag, the
elements of the children in order, and the closing tag; for a node without
children the opening tag, the value and the closing tag. Nothing stands between
the pieces and no depth is involved. -/
def plainElement : XML_Node → String
  | .mk name value attrs children =>
    if children.length > 0 then
      getStartNode (.mk name value attrs children) ++ plainElements children
        ++ getEndNode (.mk name value attrs children)
    else
      getStartNode (.mk name value attrs children) ++ value
        ++ getEndNode (.mk name value attrs children)
/-- The plain concatenation of the elements of a child sequence, in order. -/
def plainElements : List XML_Node → String
  | [] => ""
  | child :: rest => plainElement child ++ plainElements rest
end

/-! ## Lemmas on the formatting helpers -/

theorem foldl_append_eq (f : XML_Attribute → String) (l : List XML_Attribute) :
    ∀ init : String,
      l.foldl (fun ss attr => ss ++ f attr) init = init ++ String.join (l.map f) := by
  induction l with
  | nil => intro init; simp [String.join]
  | cons a l ih =>
    intro init
    rw [List.foldl_cons, ih]
    apply String.ext
    simp [String.data_append, String.data_join, List.append_assoc]

theorem getStartNode_eq (node : XML_Node) :
    getStartNode node =
      "<" ++ node.GetName ++ String.join (node.GetAllAttributes.map attributeText) ++ ">" := by
  have h := foldl_append_eq attributeText node.GetAllAttributes ("" ++ "<" ++ node.GetName)
  simp only [attributeText, ← String.append_assoc, String.empty_append] at h
  simp only [getStartNode, String.empty_append]
  rw [h]

/-! ## Lemmas on the writer -/

mutual
theorem WriteChildrenNodes_stream : ∀ (node : XML_Node) (fs : OStream) (newLines : Bool)
    (tabs : Nat),
    WriteChildrenNodes fs node newLines tabs = fs ++ WriteChildrenNodes "" node newLines tabs
  | .mk _ _ _ children, fs, newLines, tabs => by
    rw [WriteChildrenNodes, WriteChildrenNodes]
    exact WriteChildrenNodes_loop_stream children fs newLines tabs
theorem WriteChildrenNodes_loop_stream : ∀ (children : List XML_Node) (fs : OStream)
    (newLines : Bool) (tabs : Nat),
    WriteChildrenNodes.loop fs children newLines tabs
      = fs ++ WriteChildrenNodes.loop "" children newLines tabs
  | [], fs, newLines, tabs => by
    rw [WriteChildrenNodes.loop, WriteChildrenNodes.loop, String.append_empty]
  | child :: rest, fs, newLines, tabs => by
    rw [WriteChildrenNodes.loop, WriteChildrenNodes.loop]
    split
    · simp only
      rw [WriteChildrenNodes_loop_stream rest
          (WriteChildrenNodes (fs ++ _ ++ _ ++ _) child _ _ ++ _ ++ _ ++ _),
        WriteChildrenNodes_loop_stream rest
          (WriteChildrenNodes ("" ++ _ ++ _ ++ _) child _ _ ++ _ ++ _ ++ _),
        WriteChildrenNodes_stream child (fs ++ _ ++ _ ++ _),
        WriteChildrenNodes_stream child ("" ++ _ ++ _ ++ _)]
      simp only [String.append_assoc, String.empty_append]
    · simp only
      rw [WriteChildrenNodes_loop_stream rest (fs ++ _ ++ _ ++ _ ++ _ ++ _),
        WriteChildrenNodes_loop_stream rest ("" ++ _ ++ _ ++ _ ++ _ ++ _)]
      simp only [String.append_assoc, String.empty_append]
end

theorem WriteChildrenNodes_loop_cons (child : XML_Node) (rest : List XML_Node)
    (newLines : Bool) (tabs : Nat) :
    WriteChildrenNodes.loop "" (child :: rest) newLines tabs
      = childText child newLines tabs ++ WriteChildrenNodes.loop "" rest newLines tabs := by
  rw [WriteChildrenNodes.loop, childText]
  split
  · simp only
    rw [WriteChildrenNodes_loop_stream rest, WriteChildrenNodes_stream child]
    simp only [String.append_assoc, String.empty_append]
  · simp only
    rw [WriteChildrenNodes_loop_stream rest]
    simp only [String.append_assoc, String.empty_append]

theorem WriteChildrenNodes_loop_append (xs ys : List XML_Node) (newLines : Bool) (tabs : Nat) :
    WriteChildrenNodes.loop "" (xs ++ ys) newLines tabs
      = WriteChildrenNodes.loop "" xs newLines tabs
        ++ WriteChildrenNodes.loop "" ys newLines tabs := by
  induction xs with
  | nil => rw [List.nil_append, WriteChildrenNodes.loop, String.empty_append]
  | cons x xs ih =>
    rw [List.cons_append, WriteChildrenNodes_loop_cons, WriteChildrenNodes_loop_cons, ih,
      String.append_assoc]

theorem WriteDocumentToStream_eq (T : StrType) (fs : OStream) (document : XML_Document) :
    WriteDocumentToStream T fs document
      = fs
        ++ (if document.m_AddProlog then
              getXMLprolog T document.m_Version ++ getNewLine document.m_NewLines
            else "")
        ++ getStartNode document.m_Root ++ getNewLine document.m_NewLines
        ++ WriteChildrenNodes "" document.m_Root document.m_NewLines 1
        ++ getEndNode document.m_Root ++ getNewLine document.m_NewLines := by
  unfold WriteDocumentToStream XML_Document.GetAddProlog XML_Document.GetVersion
    XML_Document.GetNewLines XML_Document.GetRoot
  simp only
  rw [WriteChildrenNodes_stream]
  split <;> simp only [String.append_assoc, String.append_empty, String.empty_append]

theorem WriteChildrenNodes_eq_loop (fs : OStream) (node : XML_Node) (newLines : Bool)
    (tabs : Nat) :
    WriteChildrenNodes fs node newLines tabs
      = WriteChildrenNodes.loop fs node.GetAllChildren newLines tabs := by
  cases node
  rw [WriteChildrenNodes, XML_Node.GetAllChildren]

theorem WriteChildrenNodes_of_no_children (fs : OStream) (node : XML_Node) (newLines : Bool)
    (tabs : Nat) (h : node.GetAllChildren = []) :
    WriteChildrenNodes fs node newLines tabs = fs := by
  rw [WriteChildrenNodes_eq_loop, h, WriteChildrenNodes.loop]

/-! ## Lemmas on `sameUpToContainerValues` -/

theorem sameUpToContainerValues_list_length :
    ∀ xs ys : List XML_Node, sameUpToContainerValues.list xs ys = true → xs.length = ys.length
  | [], [], _ => rfl
  | [], _ :: _, h => by simp [sameUpToContainerValues.list] at h
  | _ :: _, [], h => by simp [sameUpToContainerValues.list] at h
  | _ :: xs, _ :: ys, h => by
    simp only [sameUpToContainerValues.list, Bool.and_eq_true] at h
    simp [sameUpToContainerValues_list_length xs ys h.2]

theorem sameUpToContainerValues_tags (a b : XML_Node) (h : sameUpToContainerValues a b = true) :
    getStartNode a = getStartNode b ∧ getEndNode a = getEndNode b
      ∧ a.GetAllChildren.length = b.GetAllChildren.length
      ∧ (a.GetAllChildren.length = 0 → a.GetValue = b.GetValue) := by
  obtain ⟨n₁, v₁, a₁, c₁⟩ := a
  obtain ⟨n₂, v₂, a₂, c₂⟩ := b
  simp only [sameUpToContainerValues, Bool.and_eq_true, beq_iff_eq, Bool.or_eq_true,
    Bool.not_eq_true', List.isEmpty_eq_false] at h
  obtain ⟨⟨⟨hn, ha⟩, hv⟩, hc⟩ := h
  subst hn ha
  refine ⟨rfl, rfl, sameUpToContainerValues_list_length _ _ hc, ?_⟩
  intro h0
  rcases hv with hv | hv
  · exact absurd (List.length_eq_zero.mp h0) hv
  · exact hv

theorem childText_congr (a b : XML_Node) (newLines : Bool) (tabs : Nat)
    (h : sameUpToContainerValues a b = true)
    (hrec : WriteChildrenNodes "" a newLines (tabs + 1)
      = WriteChildrenNodes "" b newLines (tabs + 1)) :
    childText a newLines tabs = childText b newLines tabs := by
  obtain ⟨hs, he, hl, hv⟩ := sameUpToContainerValues_tags a b h
  unfold childText
  rw [← hl, ← hs, ← he, ← hrec]
  split
  · rfl
  · rw [hv (by omega)]

mutual
theorem sameUpToContainerValues_children : ∀ (a b : XML_Node),
    sameUpToContainerValues a b = true → ∀ (newLines : Bool) (tabs : Nat),
      WriteChildrenNodes "" a newLines tabs = WriteChildrenNodes "" b newLines tabs
  | .mk _ _ _ c₁, .mk _ _ _ c₂, h, newLines, tabs => by
    simp only [sameUpToContainerValues, Bool.and_eq_true] at h
    rw [WriteChildrenNodes, WriteChildrenNodes]
    exact sameUpToContainerValues_loop c₁ c₂ h.2 newLines tabs
theorem sameUpToContainerValues_loop : ∀ (xs ys : List XML_Node),
    sameUpToContainerValues.list xs ys = true → ∀ (newLines : Bool) (tabs : Nat),
      WriteChildrenNodes.loop "" xs newLines tabs = WriteChildrenNodes.loop "" ys newLines tabs
  | [], [], _, _, _ => rfl
  | [], _ :: _, h, _, _ => by simp [sameUpToContainerValues.list] at h
  | _ :: _, [], h, _, _ => by simp [sameUpToContainerValues.list] at h
  | x :: xs, y :: ys, h, newLines, tabs => by
    simp only [sameUpToContainerValues.list, Bool.and_eq_true] at h
    rw [WriteChildrenNodes_loop_cons, WriteChildrenNodes_loop_cons,
      sameUpToContainerValues_loop xs ys h.2 newLines tabs,
      childText_congr x y newLines tabs h.1
        (sameUpToContainerValues_children x y h.1 newLines (tabs + 1))]
end

/-! ## Lemmas on lines and indentation -/

theorem atLineStart_append_newline (s : String) : atLineStart (s ++ "\n") = true := by
  simp [atLineStart, String.data_append]

theorem atLineStart_append (s t : String) (h : atLineStart t = true) :
    atLineStart (s ++ "\n" ++ t) = true := by
  unfold atLineStart at h ⊢
  rcases List.eq_nil_or_concat t.data with ht | ⟨l, c, ht⟩
  · simp [String.data_append, ht]
  · rw [ht, List.concat_eq_append, List.getLast?_concat] at h
    rw [String.data_append, ht, List.concat_eq_append, ← List.append_assoc,
      List.getLast?_concat]
    exact h

theorem childText_newline (child : XML_Node) (tabs : Nat) :
    ∃ s, childText child true tabs = s ++ "\n" := by
  unfold childText getNewLine
  split
  · exact ⟨_, rfl⟩
  · exact ⟨_, rfl⟩

theorem atLineStart_loop (children : List XML_Node) (tabs : Nat) :
    atLineStart (WriteChildrenNodes.loop "" children true tabs) = true := by
  rcases List.eq_nil_or_concat children with h | ⟨l, c, h⟩
  · subst h
    rw [WriteChildrenNodes.loop]
    rfl
  · subst h
    obtain ⟨s, hs⟩ := childText_newline c tabs
    rw [List.concat_eq_append, WriteChildrenNodes_loop_append, WriteChildrenNodes_loop_cons,
      WriteChildrenNodes.loop, String.append_empty, hs, ← String.append_assoc]
    exact atLineStart_append_newline _

theorem atLineStart_WriteChildrenNodes (node : XML_Node) (tabs : Nat) :
    atLineStart (WriteChildrenNodes "" node true tabs) = true := by
  rw [WriteChildrenNodes_eq_loop]
  exact atLineStart_loop _ _

theorem WriteChildrenNodes_loop_getElem (children : List XML_Node) (i : Nat) (child : XML_Node)
    (h : children[i]? = some child) (newLines : Bool) (tabs : Nat) :
    WriteChildrenNodes.loop "" children newLines tabs
      = WriteChildrenNodes.loop "" (children.take i) newLines tabs
        ++ childText child newLines tabs
        ++ WriteChildrenNodes.loop "" (children.drop (i + 1)) newLines tabs := by
  obtain ⟨hi, hc⟩ := List.getElem?_eq_some.mp h
  have hsplit : children = children.take i ++ child :: children.drop (i + 1) := by
    rw [← hc, ← List.drop_eq_getElem_cons hi, List.take_append_drop]
  conv_lhs => rw [hsplit]
  rw [WriteChildrenNodes_loop_append, WriteChildrenNodes_loop_cons, String.append_assoc]

theorem nodeAt_childText : ∀ (path : List Nat) (parent : XML_Node) (i d : Nat) (node : XML_Node),
    nodeAt parent (i :: path) = some node →
    ∃ before after : String, atLineStart before = true
      ∧ WriteChildrenNodes "" parent true d
        = before ++ childText node true (d + path.length) ++ after := by
  intro path
  induction path with
  | nil =>
    intro parent i d node h
    rw [nodeAt] at h
    split at h
    · next child hchild =>
      rw [nodeAt] at h
      cases h
      refine ⟨WriteChildrenNodes.loop "" (parent.GetAllChildren.take i) true d,
        WriteChildrenNodes.loop "" (parent.GetAllChildren.drop (i + 1)) true d,
        atLineStart_loop (parent.GetAllChildren.take i) d, ?_⟩
      rw [WriteChildrenNodes_eq_loop]
      exact WriteChildrenNodes_loop_getElem _ i _ hchild true d
    · cases h
  | cons j path ih =>
    intro parent i d node h
    rw [nodeAt] at h
    split at h
    · next child hchild =>
      obtain ⟨before, after, hb, heq⟩ := ih child j (d + 1) node h
      have hlen : child.GetAllChildren.length > 0 := by
        rw [nodeAt] at h
        split at h
        · next c hc => exact Nat.lt_of_le_of_lt (Nat.zero_le _) (List.getElem?_eq_some.mp hc).1
        · cases h
      refine ⟨WriteChildrenNodes.loop "" (parent.GetAllChildren.take i) true d
          ++ getTabs d ++ getStartNode child ++ "\n" ++ before,
        after ++ getTabs d ++ getEndNode child ++ "\n"
          ++ WriteChildrenNodes.loop "" (parent.GetAllChildren.drop (i + 1)) true d,
        atLineStart_append _ _ hb, ?_⟩
      rw [WriteChildrenNodes_eq_loop, WriteChildrenNodes_loop_getElem _ i _ hchild true d]
      conv_lhs => rw [childText, if_pos hlen, heq]
      simp only [getNewLine, if_true, List.length_cons, String.append_assoc,
        Nat.add_assoc, Nat.add_comm 1]
    · cases h

/-! ## Lemmas on deleting tabs and newlines -/

theorem deleteTabsAndNewlines_append (a b : String) :
    deleteTabsAndNewlines (a ++ b) = deleteTabsAndNewlines a ++ deleteTabsAndNewlines b := by
  apply String.ext
  simp [deleteTabsAndNewlines, String.data_append]

theorem deleteTabsAndNewlines_of_clean (s : String) (h : hasNoTabOrNewline s = true) :
    deleteTabsAndNewlines s = s := by
  apply String.ext
  unfold hasNoTabOrNewline at h
  unfold deleteTabsAndNewlines
  exact List.filter_eq_self.mpr (fun c hc => List.all_eq_true.mp h c hc)

theorem deleteTabsAndNewlines_getTabs (amount : Nat) :
    deleteTabsAndNewlines (getTabs amount) = "" := by
  apply String.ext
  unfold deleteTabsAndNewlines getTabs
  show List.filter _ (List.replicate amount '\t') = []
  rw [List.filter_eq_nil_iff]
  intro c hc
  rw [List.eq_of_mem_replicate hc]
  decide

theorem deleteTabsAndNewlines_newline : deleteTabsAndNewlines "\n" = "" := by
  decide

theorem hasNoTabOrNewline_deleteTabsAndNewlines (s : String) :
    hasNoTabOrNewline (deleteTabsAndNewlines s) = true := by
  unfold hasNoTabOrNewline deleteTabsAndNewlines
  rw [List.all_eq_true]
  intro c hc
  exact (List.mem_filter.mp hc).2

theorem hasNoTabOrNewline_append (a b : String) :
    hasNoTabOrNewline (a ++ b) = (hasNoTabOrNewline a && hasNoTabOrNewline b) := by
  simp [hasNoTabOrNewline, String.data_append]

theorem hasNoTabOrNewline_join_attributes (attrs : List XML_Attribute)
    (h : attrs.all (fun a => hasNoTabOrNewline a.m_Name && hasNoTabOrNewline a.m_Value) = true) :
    hasNoTabOrNewline (String.join (attrs.map attributeText)) = true := by
  induction attrs with
  | nil => rfl
  | cons a attrs ih =>
    rw [List.all_cons, Bool.and_eq_true, Bool.and_eq_true] at h
    have hjoin : String.join (List.map attributeText (a :: attrs))
        = attributeText a ++ String.join (List.map attributeText attrs) := by
      apply String.ext
      simp [String.data_join, String.data_append]
    have hquote : hasNoTabOrNewline "\"" = true := by decide
    have hspace : hasNoTabOrNewline " " = true := by decide
    have hequals : hasNoTabOrNewline "=\"" = true := by decide
    rw [hjoin, hasNoTabOrNewline_append, ih h.2, attributeText]
    simp only [hasNoTabOrNewline_append, h.1.1, h.1.2, hquote, hspace, hequals, Bool.and_self]

theorem hasNoTabOrNewline_tags (node : XML_Node) (h : node.hasNoTabOrNewline = true) :
    hasNoTabOrNewline (getStartNode node) = true ∧ hasNoTabOrNewline (getEndNode node) = true
      ∧ hasNoTabOrNewline node.GetValue = true := by
  obtain ⟨name, value, attrs, children⟩ := node
  simp only [XML_Node.hasNoTabOrNewline, Bool.and_eq_true] at h
  obtain ⟨⟨⟨hname, hvalue⟩, hattrs⟩, -⟩ := h
  have hlt : hasNoTabOrNewline "<" = true := by decide
  have hgt : hasNoTabOrNewline ">" = true := by decide
  have hlts : hasNoTabOrNewline "</" = true := by decide
  refine ⟨?_, ?_, hvalue⟩
  · rw [getStartNode_eq]
    simp only [hasNoTabOrNewline_append, XML_Node.GetName, XML_Node.GetAllAttributes, hname,
      hasNoTabOrNewline_join_attributes attrs hattrs, hlt, hgt, Bool.and_self]
  · simp only [getEndNode, hasNoTabOrNewline_append, XML_Node.GetName, hname, hlts, hgt,
      Bool.and_self]

theorem hasNoTabOrNewline_getXMLprolog (T : StrType) (version : String)
    (h : hasNoTabOrNewline version = true) :
    hasNoTabOrNewline (getXMLprolog T version) = true := by
  have h1 : hasNoTabOrNewline "<?xml version=\"" = true := by decide
  have h2 : hasNoTabOrNewline "\" encoding=\"UTF-8\"?>" = true := by decide
  have h3 : hasNoTabOrNewline "\" encoding=\"UTF-16\"?>" = true := by decide
  cases T <;> simp only [getXMLprolog, hasNoTabOrNewline_append, h, h1, h2, h3, Bool.and_self]

theorem childText_delete (child : XML_Node) (tabs : Nat) (h : child.hasNoTabOrNewline = true)
    (hrec : deleteTabsAndNewlines (WriteChildrenNodes "" child true (tabs + 1))
      = WriteChildrenNodes "" child false (tabs + 1)) :
    deleteTabsAndNewlines (childText child true tabs) = childText child false tabs := by
  obtain ⟨hs, he, hv⟩ := hasNoTabOrNewline_tags child h
  unfold childText
  split
  · simp only [getNewLine, if_true, Bool.false_eq_true, if_false, deleteTabsAndNewlines_append,
      deleteTabsAndNewlines_getTabs, deleteTabsAndNewlines_newline, hrec,
      deleteTabsAndNewlines_of_clean _ hs, deleteTabsAndNewlines_of_clean _ he]
  · simp only [getNewLine, if_true, Bool.false_eq_true, if_false, deleteTabsAndNewlines_append,
      deleteTabsAndNewlines_getTabs, deleteTabsAndNewlines_newline,
      deleteTabsAndNewlines_of_clean _ hs, deleteTabsAndNewlines_of_clean _ he,
      deleteTabsAndNewlines_of_clean _ hv]

mutual
theorem WriteChildrenNodes_delete : ∀ (node : XML_Node) (tabs : Nat),
    node.hasNoTabOrNewline = true →
    deleteTabsAndNewlines (WriteChildrenNodes "" node true tabs)
      = WriteChildrenNodes "" node false tabs
  | .mk _ _ _ children, tabs, h => by
    simp only [XML_Node.hasNoTabOrNewline, Bool.and_eq_true] at h
    rw [WriteChildrenNodes, WriteChildrenNodes]
    exact WriteChildrenNodes_loop_delete children tabs h.2
theorem WriteChildrenNodes_loop_delete : ∀ (children : List XML_Node) (tabs : Nat),
    XML_Node.hasNoTabOrNewline.list children = true →
    deleteTabsAndNewlines (WriteChildrenNodes.loop "" children true tabs)
      = WriteChildrenNodes.loop "" children false tabs
  | [], _, _ => by
    rw [WriteChildrenNodes.loop, WriteChildrenNodes.loop]
    rfl
  | child :: rest, tabs, h => by
    simp only [XML_Node.hasNoTabOrNewline.list, Bool.and_eq_true] at h
    rw [WriteChildrenNodes_loop_cons, WriteChildrenNodes_loop_cons,
      deleteTabsAndNewlines_append, WriteChildrenNodes_loop_delete rest tabs h.2,
      childText_delete child tabs h.1 (WriteChildrenNodes_delete child (tabs + 1) h.1)]
end

/-! ## Lemmas on the lookups -/

theorem findIdx_first {α : Type} (p : α → Bool) (l : List α) :
    l.findIdx p ≤ l.length
    ∧ (l.findIdx p = l.length ↔ ∀ x ∈ l, p x = false)
    ∧ (∀ a, l[l.findIdx p]? = some a → p a = true)
    ∧ (∀ j a, j < l.findIdx p → l[j]? = some a → p a = false) := by
  refine ⟨List.findIdx_le_length p, List.findIdx_eq_length, ?_, ?_⟩
  · intro a ha
    exact List.findIdx_of_getElem?_eq_some ha
  · intro j a hj ha
    obtain ⟨hlt, heq⟩ := List.getElem?_eq_some.mp ha
    rw [← heq]
    exact List.not_of_lt_findIdx hj

theorem GetAttribute_of_found (node : XML_Node) (name : String) (a : XML_Attribute)
    (h : node.GetAllAttributes[node.FindAttr name]? = some a) :
    node.GetAttribute name = Reference.destroyedTemporary a := by
  obtain ⟨hlt, heq⟩ := List.getElem?_eq_some.mp h
  unfold XML_Node.GetAttribute
  simp only [dif_pos hlt, heq]

/-! ## Lemmas on the output without newlines -/

theorem childText_false (child : XML_Node) (tabs : Nat)
    (hrec : WriteChildrenNodes "" child false (tabs + 1) = plainElements child.GetAllChildren) :
    childText child false tabs = plainElement child := by
  obtain ⟨name, value, attrs, children⟩ := child
  rw [childText, plainElement, hrec]
  simp only [XML_Node.GetAllChildren, XML_Node.GetValue, getNewLine, Bool.false_eq_true,
    if_false, String.append_empty, String.empty_append]

mutual
theorem WriteChildrenNodes_plain : ∀ (node : XML_Node) (tabs : Nat),
    WriteChildrenNodes "" node false tabs = plainElements node.GetAllChildren
  | .mk _ _ _ children, tabs => by
    rw [WriteChildrenNodes, XML_Node.GetAllChildren]
    exact WriteChildrenNodes_loop_plain children tabs
theorem WriteChildrenNodes_loop_plain : ∀ (children : List XML_Node) (tabs : Nat),
    WriteChildrenNodes.loop "" children false tabs = plainElements children
  | [], _ => by
    rw [WriteChildrenNodes.loop, plainElements]
  | child :: rest, tabs => by
    rw [WriteChildrenNodes_loop_cons, plainElements, WriteChildrenNodes_loop_plain rest tabs,
      childText_false child tabs (WriteChildrenNodes_plain child (tabs + 1))]
end

/-! ## Claims -/

/-- C1: for every document, `WriteDocumentToStream` adds to the stream exactly the
prolog of the version and a newline iff `newLines` (both only if `addProlog`),
then the opening tag of the root and a newline iff `newLines`, then what
`WriteChildrenNodes` emits for the root at depth 1, then the closing tag of the
root and a newline iff `newLines`. For the root `root` with attribute `id="1"`
and one leaf child `leaf` with value `hello`, version `1.0`, both switches on
and the `std::string` representation, the text is the four lines of the
scenario. -/
theorem C1_WriteDocumentToStream_layout :
    (∀ (T : StrType) (fs : OStream) (document : XML_Document),
      WriteDocumentToStream T fs document
        = fs
          ++ (if document.m_AddProlog then
                getXMLprolog T document.m_Version ++ getNewLine document.m_NewLines
              else "")
          ++ getStartNode document.m_Root ++ getNewLine document.m_NewLines
          ++ WriteChildrenNodes "" document.m_Root document.m_NewLines 1
          ++ getEndNode document.m_Root ++ getNewLine document.m_NewLines)
    ∧ WriteDocumentToStream StrType.string ""
        { m_Version := "1.0", m_Namespace := "",
          m_Root := XML_Node.mk "root" "" [⟨"id", "1"⟩] [XML_Node.mk "leaf" "hello" [] []],
          m_AddProlog := true, m_NewLines := true }
      = "<?xml version=\"1.0\" encoding=\"UTF-8\"?>\n<root id=\"1\">\n\t<leaf>hello</leaf>\n</root>\n" :=
  ⟨WriteDocumentToStream_eq, by decide⟩

/-- C2: a child with an empty child sequence, met by `WriteChildrenNodes` at depth
`d` between the siblings `pre` and `post`, adds to the stream exactly `d` tabs
if `newLines` is set (nothing otherwise), `<name`, the attributes in insertion
order, `>`, the value unchanged, `</name>`, and a newline iff `newLines`. -/
theorem C2_leaf_emission (fs : OStream) (name value : String) (attrs : List XML_Attribute)
    (pre post : List XML_Node) (leaf : XML_Node) (newLines : Bool) (d : Nat)
    (hleaf : leaf.GetAllChildren = []) :
    WriteChildrenNodes fs (XML_Node.mk name value attrs (pre ++ leaf :: post)) newLines d
      = WriteChildrenNodes
          (WriteChildrenNodes fs (XML_Node.mk name value attrs pre) newLines d
            ++ (if newLines then String.mk (List.replicate d '\t') else "")
            ++ "<" ++ leaf.GetName
            ++ String.join (leaf.GetAllAttributes.map
                (fun a => " " ++ a.m_Name ++ "=\"" ++ a.m_Value ++ "\""))
            ++ ">" ++ leaf.GetValue ++ "</" ++ leaf.GetName ++ ">"
            ++ (if newLines then "\n" else ""))
          (XML_Node.mk name value attrs post) newLines d := by
  have hstart := getStartNode_eq leaf
  rw [show (fun a : XML_Attribute => " " ++ a.m_Name ++ "=\"" ++ a.m_Value ++ "\"")
    = attributeText from rfl]
  rw [WriteChildrenNodes_stream _ fs, WriteChildrenNodes_stream _ (_ ++ _),
    WriteChildrenNodes_stream _ fs]
  simp only [WriteChildrenNodes]
  rw [WriteChildrenNodes_loop_append, WriteChildrenNodes_loop_cons, childText, hleaf]
  simp only [List.length_nil, gt_iff_lt, lt_self_iff_false, if_false, hstart, getEndNode,
    getTabs, getNewLine, String.append_assoc]

/-- C2, at a concrete input: the leaf `v` with attribute `k="1"` and value
`a<b&c`, second of three children, at depth 2 with `newLines` set. -/
theorem C2_leaf_emission_witness :
    (XML_Node.mk "v" "a<b&c" [⟨"k", "1"⟩] []).GetAllChildren = []
    ∧ WriteChildrenNodes "" (XML_Node.mk "p" "" []
          ([XML_Node.mk "u" "" [] []] ++ XML_Node.mk "v" "a<b&c" [⟨"k", "1"⟩] []
            :: [XML_Node.mk "w" "" [] []])) true 2
      = WriteChildrenNodes
          ("\t\t<u></u>\n" ++ "\t\t<v k=\"1\">a<b&c</v>\n")
          (XML_Node.mk "p" "" [] [XML_Node.mk "w" "" [] []]) true 2 :=
  ⟨rfl, C2_leaf_emission "" "p" "" [] [XML_Node.mk "u" "" [] []] [XML_Node.mk "w" "" [] []]
    (XML_Node.mk "v" "a<b&c" [⟨"k", "1"⟩] []) true 2 rfl⟩

/-- C3 as stated fails: for the root `root` with value `text` and no children
(no prolog, `newLines` set) the writer emits the opening tag, a newline, the
closing tag and a newline; the value `text` is not emitted, and the text is not
the single line `<root>text</root>`. -/
theorem C3_counterexample :
    (XML_Node.mk "root" "text" [] []).GetAllChildren = []
    ∧ WriteDocumentToStream StrType.string ""
        { m_Version := "1.0", m_Namespace := "", m_Root := XML_Node.mk "root" "text" [] [],
          m_AddProlog := false, m_NewLines := true }
      = "<root>\n</root>\n"
    ∧ WriteDocumentToStream StrType.string ""
        { m_Version := "1.0", m_Namespace := "", m_Root := XML_Node.mk "root" "text" [] [],
          m_AddProlog := false, m_NewLines := true }
      ≠ getStartNode (XML_Node.mk "root" "text" [] [])
          ++ (XML_Node.mk "root" "text" [] []).GetValue
          ++ getEndNode (XML_Node.mk "root" "text" [] []) ++ getNewLine true :=
  ⟨rfl, by decide, by decide⟩

/-- C3, amended: for every document whose root has an empty child sequence,
what the writer adds to the stream after the optional prolog is exactly the
opening tag of the root, a newline iff `newLines`, the closing tag of the root,
and a newline iff `newLines`. -/
theorem C3_childless_root (T : StrType) (fs : OStream) (document : XML_Document)
    (hroot : document.m_Root.GetAllChildren = []) :
    WriteDocumentToStream T fs document
      = fs
        ++ (if document.m_AddProlog then
              getXMLprolog T document.m_Version ++ getNewLine document.m_NewLines
            else "")
        ++ getStartNode document.m_Root ++ getNewLine document.m_NewLines
        ++ getEndNode document.m_Root ++ getNewLine document.m_NewLines := by
  rw [WriteDocumentToStream_eq, WriteChildrenNodes_of_no_children _ _ _ _ hroot,
    String.append_empty]

/-- C3, amended, at a concrete input: the root `root` with value `text` and no
children, with prolog and newlines. -/
theorem C3_childless_root_witness :
    (XML_Node.mk "root" "text" [] []).GetAllChildren = []
    ∧ WriteDocumentToStream StrType.string ""
        { m_Version := "1.0", m_Namespace := "", m_Root := XML_Node.mk "root" "text" [] [],
          m_AddProlog := true, m_NewLines := true }
      = ""
        ++ (if true = true then getXMLprolog StrType.string "1.0" ++ getNewLine true else "")
        ++ getStartNode (XML_Node.mk "root" "text" [] []) ++ getNewLine true
        ++ getEndNode (XML_Node.mk "root" "text" [] []) ++ getNewLine true :=
  ⟨rfl, C3_childless_root StrType.string ""
    { m_Version := "1.0", m_Namespace := "", m_Root := XML_Node.mk "root" "text" [] [],
      m_AddProlog := true, m_NewLines := true } rfl⟩

/-- C4: two documents that are identical except for the value text of nodes
having at least one child (the root included) produce the same
`WriteDocumentToStream` output. -/
theorem C4_container_value_ignored (T : StrType) (fs : OStream) (d₁ d₂ : XML_Document)
    (hversion : d₁.m_Version = d₂.m_Version) (_hnamespace : d₁.m_Namespace = d₂.m_Namespace)
    (hprolog : d₁.m_AddProlog = d₂.m_AddProlog) (hnewLines : d₁.m_NewLines = d₂.m_NewLines)
    (hroot : sameUpToContainerValues d₁.m_Root d₂.m_Root = true) :
    WriteDocumentToStream T fs d₁ = WriteDocumentToStream T fs d₂ := by
  obtain ⟨hs, he, -, -⟩ := sameUpToContainerValues_tags _ _ hroot
  rw [WriteDocumentToStream_eq, WriteDocumentToStream_eq, hversion, hprolog, hnewLines, hs, he,
    sameUpToContainerValues_children _ _ hroot]

/-- C4, at a concrete input: the root and its child `row` both have children and
carry different values in the two documents; the leaf `cell` has the same value
in both. -/
theorem C4_container_value_ignored_witness :
    sameUpToContainerValues
        (XML_Node.mk "root" "x" [] [XML_Node.mk "row" "y" [⟨"n", "1"⟩]
          [XML_Node.mk "cell" "v" [] []]])
        (XML_Node.mk "root" "" [] [XML_Node.mk "row" "z" [⟨"n", "1"⟩]
          [XML_Node.mk "cell" "v" [] []]]) = true
    ∧ WriteDocumentToStream StrType.string ""
        { m_Version := "1.0", m_Namespace := "",
          m_Root := XML_Node.mk "root" "x" [] [XML_Node.mk "row" "y" [⟨"n", "1"⟩]
            [XML_Node.mk "cell" "v" [] []]],
          m_AddProlog := true, m_NewLines := true }
      = WriteDocumentToStream StrType.string ""
        { m_Version := "1.0", m_Namespace := "",
          m_Root := XML_Node.mk "root" "" [] [XML_Node.mk "row" "z" [⟨"n", "1"⟩]
            [XML_Node.mk "cell" "v" [] []]],
          m_AddProlog := true, m_NewLines := true } :=
  ⟨by decide, C4_container_value_ignored StrType.string "" _ _ rfl rfl rfl rfl (by decide)⟩

/-- C5: in a document with `newLines` set, let `node` be reached from the root by
`path`, so that its nesting depth is `path.length` (0 for the root, 1 for its
direct children, one more per level). The output contains the element of
`node` starting at the beginning of a line (after `before`): exactly
`path.length` tabs and the opening tag; and, for the root and for every node
with children, after the node's children (emitted one level deeper) again at
the beginning of a line exactly `path.length` tabs and the closing tag. A node
below the root without children is the single line of tabs, opening tag, value
and closing tag. For the root the number of tabs is 0. -/
theorem C5_indentation_depth (T : StrType) (document : XML_Document) (path : List Nat)
    (node : XML_Node) (hnl : document.m_NewLines = true)
    (hnode : nodeAt document.m_Root path = some node) :
    ∃ before after : String,
      atLineStart before = true
      ∧ (path = [] ∨ node.GetAllChildren.length > 0 →
          WriteDocumentToStream T "" document
            = before ++ String.mk (List.replicate path.length '\t') ++ getStartNode node ++ "\n"
              ++ WriteChildrenNodes "" node true (path.length + 1)
              ++ String.mk (List.replicate path.length '\t') ++ getEndNode node ++ "\n"
              ++ after
          ∧ atLineStart
              (before ++ String.mk (List.replicate path.length '\t') ++ getStartNode node
                ++ "\n" ++ WriteChildrenNodes "" node true (path.length + 1)) = true)
      ∧ (path ≠ [] ∧ node.GetAllChildren.length = 0 →
          WriteDocumentToStream T "" document
            = before ++ String.mk (List.replicate path.length '\t') ++ getStartNode node
              ++ node.GetValue ++ getEndNode node ++ "\n" ++ after) := by
  have hprolog : atLineStart
      (if document.m_AddProlog then getXMLprolog T document.m_Version ++ "\n" else "")
        = true := by
    split
    · exact atLineStart_append_newline _
    · rfl
  have hout := WriteDocumentToStream_eq T "" document
  rw [hnl] at hout
  simp only [getNewLine, if_true, String.empty_append] at hout
  cases path with
  | nil =>
    rw [nodeAt] at hnode
    cases hnode
    refine ⟨_, "", hprolog, ?_, ?_⟩
    · intro _
      refine ⟨?_, ?_⟩
      · rw [hout]
        simp only [List.length_nil, List.replicate_zero, show String.mk [] = "" from rfl,
          String.append_empty, Nat.zero_add]
      · exact atLineStart_append _ _ (atLineStart_WriteChildrenNodes _ _)
    · intro h
      exact absurd rfl h.1
  | cons i rest =>
    obtain ⟨b, a, hb, heq⟩ := nodeAt_childText rest document.m_Root i 1 node hnode
    rw [heq] at hout
    have hdepth : (i :: rest).length = 1 + rest.length := by
      rw [List.length_cons, Nat.add_comm]
    rw [hdepth]
    refine ⟨(if document.m_AddProlog then getXMLprolog T document.m_Version ++ "\n" else "")
        ++ getStartNode document.m_Root ++ "\n" ++ b,
      a ++ getEndNode document.m_Root ++ "\n", atLineStart_append _ _ hb, ?_, ?_⟩
    · intro h
      have hlen : node.GetAllChildren.length > 0 := by
        rcases h with h | h
        · cases h
        · exact h
      refine ⟨?_, ?_⟩
      · rw [hout, childText, if_pos hlen]
        simp only [getNewLine, getTabs, if_true, String.append_assoc]
      · exact atLineStart_append _ _ (atLineStart_WriteChildrenNodes _ _)
    · intro h
      rw [hout, childText, if_neg (Nat.not_lt.mpr (Nat.le_of_eq h.2))]
      simp only [getNewLine, getTabs, if_true, String.append_assoc]

/-- C5, at a concrete input: the child `row` of the root, itself with a child
`cell`, is reached by the path `[0]` and sits at depth 1. -/
theorem C5_indentation_depth_witness :
    nestedDocument.m_NewLines = true
    ∧ nodeAt nestedDocument.m_Root [0]
        = some (XML_Node.mk "row" "y" [⟨"n", "1"⟩] [XML_Node.mk "cell" "v" [] []])
    ∧ ∃ before after : String,
      atLineStart before = true
      ∧ ([0] = [] ∨ (XML_Node.mk "row" "y" [⟨"n", "1"⟩]
            [XML_Node.mk "cell" "v" [] []]).GetAllChildren.length > 0 →
          WriteDocumentToStream StrType.string "" nestedDocument
            = before ++ String.mk (List.replicate 1 '\t')
              ++ getStartNode (XML_Node.mk "row" "y" [⟨"n", "1"⟩] [XML_Node.mk "cell" "v" [] []])
              ++ "\n"
              ++ WriteChildrenNodes ""
                  (XML_Node.mk "row" "y" [⟨"n", "1"⟩] [XML_Node.mk "cell" "v" [] []]) true 2
              ++ String.mk (List.replicate 1 '\t')
              ++ getEndNode (XML_Node.mk "row" "y" [⟨"n", "1"⟩] [XML_Node.mk "cell" "v" [] []])
              ++ "\n" ++ after
          ∧ atLineStart
              (before ++ String.mk (List.replicate 1 '\t')
                ++ getStartNode
                    (XML_Node.mk "row" "y" [⟨"n", "1"⟩] [XML_Node.mk "cell" "v" [] []])
                ++ "\n"
                ++ WriteChildrenNodes ""
                    (XML_Node.mk "row" "y" [⟨"n", "1"⟩] [XML_Node.mk "cell" "v" [] []]) true 2)
              = true)
      ∧ ([0] ≠ [] ∧ (XML_Node.mk "row" "y" [⟨"n", "1"⟩]
            [XML_Node.mk "cell" "v" [] []]).GetAllChildren.length = 0 →
          WriteDocumentToStream StrType.string "" nestedDocument
            = before ++ String.mk (List.replicate 1 '\t')
              ++ getStartNode (XML_Node.mk "row" "y" [⟨"n", "1"⟩] [XML_Node.mk "cell" "v" [] []])
              ++ (XML_Node.mk "row" "y" [⟨"n", "1"⟩] [XML_Node.mk "cell" "v" [] []]).GetValue
              ++ getEndNode (XML_Node.mk "row" "y" [⟨"n", "1"⟩] [XML_Node.mk "cell" "v" [] []])
              ++ "\n" ++ after) :=
  ⟨rfl, rfl, C5_indentation_depth StrType.string nestedDocument [0] _ rfl rfl⟩

/-- C6: for every document whose version, node names, node values, attribute
names and attribute values contain no tab and no newline, the output with
`newLines` off contains no tab and no newline, and it is the output of the same
document with `newLines` on after deleting every tab and every newline. -/
theorem C6_newLines_off (T : StrType) (document : XML_Document)
    (hclean : document.hasNoTabOrNewline = true) :
    hasNoTabOrNewline (WriteDocumentToStream T "" { document with m_NewLines := false }) = true
    ∧ WriteDocumentToStream T "" { document with m_NewLines := false }
      = deleteTabsAndNewlines
          (WriteDocumentToStream T "" { document with m_NewLines := true }) := by
  simp only [XML_Document.hasNoTabOrNewline, Bool.and_eq_true] at hclean
  obtain ⟨hversion, hroot⟩ := hclean
  obtain ⟨hs, he, -⟩ := hasNoTabOrNewline_tags document.m_Root hroot
  have hp := hasNoTabOrNewline_getXMLprolog T document.m_Version hversion
  have key : WriteDocumentToStream T "" { document with m_NewLines := false }
      = deleteTabsAndNewlines
          (WriteDocumentToStream T "" { document with m_NewLines := true }) := by
    rw [WriteDocumentToStream_eq, WriteDocumentToStream_eq]
    simp only [getNewLine, if_true, Bool.false_eq_true, if_false, deleteTabsAndNewlines_append,
      deleteTabsAndNewlines_newline, WriteChildrenNodes_delete _ _ hroot,
      deleteTabsAndNewlines_of_clean _ hs, deleteTabsAndNewlines_of_clean _ he]
    cases document.m_AddProlog
    · simp only [Bool.false_eq_true, if_false]
      rfl
    · simp only [if_true, deleteTabsAndNewlines_append, deleteTabsAndNewlines_newline,
        deleteTabsAndNewlines_of_clean _ hp, show deleteTabsAndNewlines "" = "" from rfl]
  exact ⟨by rw [key]; exact hasNoTabOrNewline_deleteTabsAndNewlines _, key⟩

/-- C6, at a concrete input: the document `nestedDocument`. -/
theorem C6_newLines_off_witness :
    nestedDocument.hasNoTabOrNewline = true
    ∧ hasNoTabOrNewline
        (WriteDocumentToStream StrType.string "" { nestedDocument with m_NewLines := false })
      = true
    ∧ WriteDocumentToStream StrType.string "" { nestedDocument with m_NewLines := false }
      = deleteTabsAndNewlines
          (WriteDocumentToStream StrType.string "" { nestedDocument with m_NewLines := true }) :=
  ⟨by decide, C6_newLines_off StrType.string nestedDocument (by decide)⟩

/-- C7: with `addProlog` off the output starts directly with the opening tag of
the root (no prolog is written) and is the same for every version; with
`addProlog` on the output is the prolog of the version, a newline iff
`newLines`, and then the output of the same document with `addProlog` off; the
`std::string` prolog of version `1.0` is `<?xml version="1.0" encoding="UTF-8"?>`. -/
theorem C7_prolog_switch (T : StrType) (fs : OStream) (document : XML_Document) :
    (∀ version : String,
      WriteDocumentToStream T fs { document with m_AddProlog := false, m_Version := version }
        = WriteDocumentToStream T fs { document with m_AddProlog := false })
    ∧ WriteDocumentToStream T fs { document with m_AddProlog := false }
      = fs ++ getStartNode document.m_Root ++ getNewLine document.m_NewLines
        ++ WriteChildrenNodes "" document.m_Root document.m_NewLines 1
        ++ getEndNode document.m_Root ++ getNewLine document.m_NewLines
    ∧ WriteDocumentToStream T fs { document with m_AddProlog := true }
      = fs ++ getXMLprolog T document.m_Version ++ getNewLine document.m_NewLines
        ++ WriteDocumentToStream T "" { document with m_AddProlog := false }
    ∧ getXMLprolog StrType.string "1.0" = "<?xml version=\"1.0\" encoding=\"UTF-8\"?>" := by
  refine ⟨?_, ?_, ?_, by decide⟩
  · intro version
    rw [WriteDocumentToStream_eq, WriteDocumentToStream_eq]
    simp only [Bool.false_eq_true, if_false]
  · rw [WriteDocumentToStream_eq]
    simp only [Bool.false_eq_true, if_false, String.append_empty]
  · rw [WriteDocumentToStream_eq, WriteDocumentToStream_eq]
    simp only [if_true, Bool.false_eq_true, if_false, String.append_empty, String.empty_append,
      String.append_assoc]

/-- C8: `getStartNode` returns `<` and the name, then for each attribute of the
attribute sequence, in order, a space, the attribute name, `="`, the attribute
value and `"`, then `>`; `getEndNode` returns `</`, the name and `>`. Without
attributes the opening tag is `<name>`, and neither tag depends on the value or
the children of the node. -/
theorem C8_tags (name value value' : String) (attrs : List XML_Attribute)
    (children children' : List XML_Node) :
    getStartNode (XML_Node.mk name value attrs children)
      = "<" ++ name
        ++ String.join (attrs.map (fun a => " " ++ a.m_Name ++ "=\"" ++ a.m_Value ++ "\""))
        ++ ">"
    ∧ getEndNode (XML_Node.mk name value attrs children) = "</" ++ name ++ ">"
    ∧ getStartNode (XML_Node.mk name value [] children) = "<" ++ name ++ ">"
    ∧ getStartNode (XML_Node.mk name value attrs children)
      = getStartNode (XML_Node.mk name value' attrs children')
    ∧ getEndNode (XML_Node.mk name value attrs children)
      = getEndNode (XML_Node.mk name value' attrs children') := by
  refine ⟨?_, rfl, ?_, rfl, rfl⟩
  · rw [getStartNode_eq]
    rfl
  · rw [getStartNode_eq]
    simp only [XML_Node.GetName, XML_Node.GetAllAttributes, List.map_nil,
      show String.join [] = "" from rfl, String.append_empty]

/-- C9: when the file sink for the path opens, `WriteDocument` returns `SUCCESS`
and the text the file sink receives is the text `WriteDocumentToStream` writes
to an empty stream for the same document. -/
theorem C9_WriteDocument_text (T : StrType) (canOpen : String → Bool) (path : String)
    (document : XML_Document) (hopen : canOpen path = true) :
    WriteDocument T canOpen path document
      = (XML_Document_FileError.SUCCESS, some (WriteDocumentToStream T "" document)) := by
  unfold WriteDocument OFstream
  rw [if_pos hopen]
  rfl

/-- C9, at a concrete input: every path opens, the document is `nestedDocument`. -/
theorem C9_WriteDocument_text_witness :
    (fun _ : String => true) "out.xml" = true
    ∧ WriteDocument StrType.string (fun _ => true) "out.xml" nestedDocument
      = (XML_Document_FileError.SUCCESS,
          some (WriteDocumentToStream StrType.string "" nestedDocument)) :=
  ⟨rfl, C9_WriteDocument_text StrType.string (fun _ => true) "out.xml" nestedDocument rfl⟩

/-- C10: `WriteDocument` returns `FAILED_TO_OPEN` exactly when the sink for the path
could not be opened, nothing is written exactly in that case, and it returns
`SUCCESS` exactly when the sink opened. -/
theorem C10_WriteDocument_status (T : StrType) (canOpen : String → Bool) (path : String)
    (document : XML_Document) :
    ((WriteDocument T canOpen path document).1 = XML_Document_FileError.FAILED_TO_OPEN
        ↔ canOpen path = false)
    ∧ ((WriteDocument T canOpen path document).2 = none ↔ canOpen path = false)
    ∧ ((WriteDocument T canOpen path document).1 = XML_Document_FileError.SUCCESS
        ↔ canOpen path = true) := by
  unfold WriteDocument OFstream
  cases canOpen path <;> simp

/-- C11 as stated fails: for a path that opens, `ReadDocument` returns `SUCCESS`. -/
theorem C11_counterexample :
    IFstream (fun _ => some "<root></root>") "in.xml" = some "<root></root>"
    ∧ (ReadDocument (fun _ => some "<root></root>") "in.xml" nestedDocument).1
      = XML_Document_FileError.SUCCESS :=
  ⟨rfl, rfl⟩

/-- C11, amended: `ReadDocument` returns `FAILED_TO_OPEN` exactly when the path
cannot be opened and `SUCCESS` exactly when it can, and in both cases the
document passed in is unchanged. -/
theorem C11_ReadDocument_status (files : String → Option String) (path : String)
    (document : XML_Document) :
    ((ReadDocument files path document).1 = XML_Document_FileError.FAILED_TO_OPEN
        ↔ files path = none)
    ∧ ((ReadDocument files path document).1 = XML_Document_FileError.SUCCESS
        ↔ (files path).isSome = true)
    ∧ (ReadDocument files path document).2 = document := by
  unfold ReadDocument IFstream
  cases files path <;> simp

/-- C12: `FindAttr` returns the offset of the first attribute whose name equals
`name` exactly, and the offset of `end()` exactly when no attribute has that
name; `FindChild` does the same over the children by child name. When a match
exists, the reference that `GetAttribute` returns denotes a destroyed
temporary, which held a copy of the attribute at that first offset; for no
offset does it denote the element stored in the vector. The name `ID` does not
match the attribute `id`, and of two attributes named `id` the first is found
and copied. -/
theorem C12_first_match_returned_temporary (node : XML_Node) (name : String) :
    (node.FindAttr name ≤ node.GetAllAttributes.length
      ∧ (node.FindAttr name = node.GetAllAttributes.length
          ↔ ∀ a ∈ node.GetAllAttributes, a.m_Name ≠ name)
      ∧ (∀ a, node.GetAllAttributes[node.FindAttr name]? = some a →
          a.m_Name = name ∧ node.GetAttribute name = Reference.destroyedTemporary a)
      ∧ (∀ j a, j < node.FindAttr name → node.GetAllAttributes[j]? = some a →
          a.m_Name ≠ name))
    ∧ (node.FindChild name ≤ node.GetAllChildren.length
      ∧ (node.FindChild name = node.GetAllChildren.length
          ↔ ∀ c ∈ node.GetAllChildren, c.GetName ≠ name)
      ∧ (∀ c, node.GetAllChildren[node.FindChild name]? = some c → c.GetName = name)
      ∧ (∀ j c, j < node.FindChild name → node.GetAllChildren[j]? = some c →
          c.GetName ≠ name))
    ∧ (∀ index : Nat, node.GetAttribute name ≠ Reference.element index)
    ∧ (XML_Node.mk "n" "" [⟨"id", "1"⟩] []).FindAttr "ID" = 1
    ∧ (XML_Node.mk "n" "" [⟨"a", "0"⟩, ⟨"id", "1"⟩, ⟨"id", "2"⟩] []).FindAttr "id" = 1
    ∧ (XML_Node.mk "n" "" [⟨"a", "0"⟩, ⟨"id", "1"⟩, ⟨"id", "2"⟩] []).GetAttribute "id"
      = Reference.destroyedTemporary ⟨"id", "1"⟩
    ∧ (XML_Node.mk "n" "" []
        [XML_Node.mk "a" "0" [] [], XML_Node.mk "c" "1" [] [], XML_Node.mk "c" "2" [] []]).FindChild
          "c" = 1 := by
  obtain ⟨ha1, ha2, ha3, ha4⟩ :=
    findIdx_first (fun attr : XML_Attribute => attr.m_Name == name) node.GetAllAttributes
  obtain ⟨hc1, hc2, hc3, hc4⟩ :=
    findIdx_first (fun child : XML_Node => child.GetName == name) node.GetAllChildren
  refine ⟨⟨ha1, ?_, ?_, ?_⟩, ⟨hc1, ?_, ?_, ?_⟩, ?_, by decide, by decide, by decide, by decide⟩
  · rw [XML_Node.FindAttr, ha2]
    simp only [beq_eq_false_iff_ne]
  · intro a h
    exact ⟨beq_iff_eq.mp (ha3 a h), GetAttribute_of_found node name a h⟩
  · intro j a hj h
    exact beq_eq_false_iff_ne.mp (ha4 j a hj h)
  · rw [XML_Node.FindChild, hc2]
    simp only [beq_eq_false_iff_ne]
  · intro c h
    exact beq_iff_eq.mp (hc3 c h)
  · intro j c hj h
    exact beq_eq_false_iff_ne.mp (hc4 j c hj h)
  · intro index h
    unfold XML_Node.GetAttribute at h
    cases h

/-- C13, the code at the failing input: on a node without attributes `FindAttr`
returns `end()`, and the reference that `GetAttribute` returns denotes a
destroyed temporary that held the value-initialised attribute, with two empty
texts, instead of a failure. -/
theorem C13_miss_yields_temporary :
    (XML_Node.mk "n" "" [] []).FindAttr "id" = (XML_Node.mk "n" "" [] []).GetAllAttributes.length
    ∧ (XML_Node.mk "n" "" [] []).GetAttribute "id" = Reference.destroyedTemporary ⟨"", ""⟩
    ∧ (XML_Node.mk "n" "" [⟨"a", "0"⟩] [XML_Node.mk "b" "" [] []]).FindAttr "id"
      = (XML_Node.mk "n" "" [⟨"a", "0"⟩] [XML_Node.mk "b" "" [] []]).GetAllAttributes.length
    ∧ (XML_Node.mk "n" "" [⟨"a", "0"⟩] [XML_Node.mk "b" "" [] []]).GetAttribute "id"
      = Reference.destroyedTemporary ⟨"", ""⟩
    ∧ (XML_Node.mk "n" "" [] []).FindChild "c" = (XML_Node.mk "n" "" [] []).GetAllChildren.length :=
  ⟨rfl, rfl, by decide, by decide, rfl⟩

/-- C14: after `AddChild(c)` the child sequence is the previous one followed by
`c`, the returned element is `c`, and name, value and attributes are unchanged;
after `AddAttribute(name, value)` the attribute sequence is the previous one
followed by that attribute, the returned element is that attribute, and name,
value and children are unchanged. -/
theorem C14_append_operations (n c : XML_Node) (name value : String) :
    ((n.AddChild c).1.GetAllChildren = n.GetAllChildren ++ [c]
      ∧ (n.AddChild c).2 = c
      ∧ (n.AddChild c).1.GetName = n.GetName
      ∧ (n.AddChild c).1.GetValue = n.GetValue
      ∧ (n.AddChild c).1.GetAllAttributes = n.GetAllAttributes)
    ∧ ((n.AddAttribute name value).1.GetAllAttributes = n.GetAllAttributes ++ [⟨name, value⟩]
      ∧ (n.AddAttribute name value).2 = ⟨name, value⟩
      ∧ (n.AddAttribute name value).1.GetName = n.GetName
      ∧ (n.AddAttribute name value).1.GetValue = n.GetValue
      ∧ (n.AddAttribute name value).1.GetAllChildren = n.GetAllChildren) := by
  obtain ⟨n₀, v₀, a₀, c₀⟩ := n
  refine ⟨⟨rfl, ?_, rfl, rfl, rfl⟩, ⟨rfl, ?_, rfl, rfl, rfl⟩⟩
  · simp [XML_Node.AddChild]
  · simp [XML_Node.AddAttribute]

/-- C15: two documents that agree on root, version, `addProlog` and `newLines`
produce the same `WriteDocumentToStream` output, whatever their namespaces. -/
theorem C15_namespace_not_emitted (T : StrType) (fs : OStream) (root : XML_Node)
    (version namespace₁ namespace₂ : String) (addProlog newLines : Bool) :
    WriteDocumentToStream T fs
        { m_Version := version, m_Namespace := namespace₁, m_Root := root,
          m_AddProlog := addProlog, m_NewLines := newLines }
      = WriteDocumentToStream T fs
        { m_Version := version, m_Namespace := namespace₂, m_Root := root,
          m_AddProlog := addProlog, m_NewLines := newLines } :=
  rfl

/-- C16: a document constructed from a root and a version alone has `addProlog`
and `newLines` set and an empty namespace; `SetAddProlog(b)` makes
`GetAddProlog` return `b` and `SetNewLines(b)` makes `GetNewLines` return `b`,
each leaving the other four members unchanged. -/
theorem C16_switches (root : XML_Node) (version : String) (d : XML_Document) (b : Bool) :
    ((XML_Document.XML_Document_init root version).GetAddProlog = true
      ∧ (XML_Document.XML_Document_init root version).GetNewLines = true
      ∧ (XML_Document.XML_Document_init root version).GetNamespace = ""
      ∧ (XML_Document.XML_Document_init root version).GetRoot = root
      ∧ (XML_Document.XML_Document_init root version).GetVersion = version)
    ∧ ((d.SetAddProlog b).GetAddProlog = b
      ∧ (d.SetAddProlog b).GetNewLines = d.GetNewLines
      ∧ (d.SetAddProlog b).GetRoot = d.GetRoot
      ∧ (d.SetAddProlog b).GetVersion = d.GetVersion
      ∧ (d.SetAddProlog b).GetNamespace = d.GetNamespace)
    ∧ ((d.SetNewLines b).GetNewLines = b
      ∧ (d.SetNewLines b).GetAddProlog = d.GetAddProlog
      ∧ (d.SetNewLines b).GetRoot = d.GetRoot
      ∧ (d.SetNewLines b).GetVersion = d.GetVersion
      ∧ (d.SetNewLines b).GetNamespace = d.GetNamespace) :=
  ⟨⟨rfl, rfl, rfl, rfl, rfl⟩, ⟨rfl, rfl, rfl, rfl, rfl⟩, ⟨rfl, rfl, rfl, rfl, rfl⟩⟩

/-- C17, the code at the failing input: the copy constructor leaves the version of
the copy empty whatever the version of the original, and copies the other four
members. For `nestedDocument`, of version `1.0`, the copy has the version `""`
and its output starts with the prolog `<?xml version="" encoding="UTF-8"?>`,
so that the outputs of the copy and of the original differ. -/
theorem C17_copy_loses_version :
    (∀ d : XML_Document,
      (XML_Document.XML_Document_copy d).m_Version = ""
      ∧ (XML_Document.XML_Document_copy d).m_Root = d.m_Root
      ∧ (XML_Document.XML_Document_copy d).m_Namespace = d.m_Namespace
      ∧ (XML_Document.XML_Document_copy d).m_AddProlog = d.m_AddProlog
      ∧ (XML_Document.XML_Document_copy d).m_NewLines = d.m_NewLines)
    ∧ nestedDocument.m_Version = "1.0"
    ∧ (XML_Document.XML_Document_copy nestedDocument).m_Version = ""
    ∧ WriteDocumentToStream StrType.string "" (XML_Document.XML_Document_copy nestedDocument)
      = "<?xml version=\"\" encoding=\"UTF-8\"?>\n<root>\n\t<row n=\"1\">\n\t\t<cell>v</cell>\n\t</row>\n</root>\n"
    ∧ WriteDocumentToStream StrType.string "" nestedDocument
      = "<?xml version=\"1.0\" encoding=\"UTF-8\"?>\n<root>\n\t<row n=\"1\">\n\t\t<cell>v</cell>\n\t</row>\n</root>\n"
    ∧ WriteDocumentToStream StrType.string "" (XML_Document.XML_Document_copy nestedDocument)
      ≠ WriteDocumentToStream StrType.string "" nestedDocument :=
  ⟨fun _ => ⟨rfl, rfl, rfl, rfl, rfl⟩, rfl, rfl, by decide, by decide, by decide⟩

/-- C18, the code at the failing input: copy assignment leaves the version of the
assigned-to document as it was and takes the other four members from the
right-hand side. Assigning a document of version `2.0` to `nestedDocument`, of
version `1.0`, gives a document of version `1.0`, whose output differs from
that of the right-hand side. -/
theorem C18_assignment_keeps_version :
    (∀ a b : XML_Document,
      (XML_Document.operator_assign a b).m_Version = a.m_Version
      ∧ (XML_Document.operator_assign a b).m_Root = b.m_Root
      ∧ (XML_Document.operator_assign a b).m_Namespace = b.m_Namespace
      ∧ (XML_Document.operator_assign a b).m_AddProlog = b.m_AddProlog
      ∧ (XML_Document.operator_assign a b).m_NewLines = b.m_NewLines)
    ∧ (XML_Document.operator_assign nestedDocument
        { m_Version := "2.0", m_Namespace := "", m_Root := XML_Node.mk "other" "" [] [],
          m_AddProlog := true, m_NewLines := true }).m_Version = "1.0"
    ∧ WriteDocumentToStream StrType.string ""
        (XML_Document.operator_assign nestedDocument
          { m_Version := "2.0", m_Namespace := "", m_Root := XML_Node.mk "other" "" [] [],
            m_AddProlog := true, m_NewLines := true })
      = "<?xml version=\"1.0\" encoding=\"UTF-8\"?>\n<other>\n</other>\n"
    ∧ WriteDocumentToStream StrType.string ""
        { m_Version := "2.0", m_Namespace := "", m_Root := XML_Node.mk "other" "" [] [],
          m_AddProlog := true, m_NewLines := true }
      = "<?xml version=\"2.0\" encoding=\"UTF-8\"?>\n<other>\n</other>\n" :=
  ⟨fun _ _ => ⟨rfl, rfl, rfl, rfl, rfl⟩, rfl, by decide, by decide⟩

/-- C19: what `WriteChildrenNodes` adds to the stream for a node with the children
`xs ++ ys` is what it adds for the children `xs` followed by what it adds for
the children `ys`, at the same depth and flag; it does not depend on the name,
value or attributes of the node; it is empty for an empty child sequence; and
after `AddChild(c)` it is what it was before followed by the text for `c`. -/
theorem C19_children_concatenate (fs : OStream) (name value name' value' : String)
    (attrs attrs' : List XML_Attribute) (xs ys : List XML_Node) (n c : XML_Node)
    (newLines : Bool) (d : Nat) :
    WriteChildrenNodes fs (XML_Node.mk name value attrs (xs ++ ys)) newLines d
      = fs ++ WriteChildrenNodes "" (XML_Node.mk name value attrs xs) newLines d
        ++ WriteChildrenNodes "" (XML_Node.mk name value attrs ys) newLines d
    ∧ WriteChildrenNodes fs (XML_Node.mk name value attrs xs) newLines d
      = WriteChildrenNodes fs (XML_Node.mk name' value' attrs' xs) newLines d
    ∧ WriteChildrenNodes fs (XML_Node.mk name value attrs []) newLines d = fs
    ∧ WriteChildrenNodes fs (n.AddChild c).1 newLines d
      = WriteChildrenNodes fs n newLines d
        ++ WriteChildrenNodes "" (XML_Node.mk name value attrs [c]) newLines d := by
  refine ⟨?_, rfl, rfl, ?_⟩
  · rw [WriteChildrenNodes_stream]
    simp only [WriteChildrenNodes]
    rw [WriteChildrenNodes_loop_append, String.append_assoc]
  · obtain ⟨n₀, v₀, a₀, c₀⟩ := n
    rw [WriteChildrenNodes_stream, WriteChildrenNodes_stream _ fs]
    simp only [XML_Node.AddChild, WriteChildrenNodes]
    rw [WriteChildrenNodes_loop_append, String.append_assoc]

/-- C20: with `newLines` off, `WriteChildrenNodes` emits the same text at every two
depths, and that text is the plain concatenation of the elements of the
children: opening tags, values of childless nodes and closing tags in document
order, with nothing between them. -/
theorem C20_depth_irrelevant_without_newlines (fs : OStream) (node : XML_Node) (d₁ d₂ : Nat) :
    WriteChildrenNodes fs node false d₁ = WriteChildrenNodes fs node false d₂
    ∧ WriteChildrenNodes fs node false d₁ = fs ++ plainElements node.GetAllChildren
    ∧ WriteChildrenNodes ""
        (XML_Node.mk "root" "x" [] [XML_Node.mk "row" "y" [⟨"n", "1"⟩]
          [XML_Node.mk "cell" "v" [] [], XML_Node.mk "cell" "w" [] []]]) false 7
      = "<row n=\"1\"><cell>v</cell><cell>w</cell></row>" := by
  refine ⟨?_, ?_, by decide⟩
  · rw [WriteChildrenNodes_stream, WriteChildrenNodes_stream _ fs, WriteChildrenNodes_plain,
      WriteChildrenNodes_plain]
  · rw [WriteChildrenNodes_stream, WriteChildrenNodes_plain]

end mrt
